import Mathlib

/-!
Verification development for the Mars Crater Studio repository.

The repository ships a React front end (src/src/App.js, three historical
variants concatenated) that displays hard-coded crater detection statistics
and, in one variant, statistics parsed from a fetched CSV file.  The crater
detection engine and the heightmap-to-mesh converter described by the design
specification are not part of src/; where a claim depends on them they are
modelled from the specification text, and each such definition says so in its
doc comment.  Everything that exists in src/ (the published statistics record,
the statistics table, the CSV parse callback, the render logic) is translated
directly from the source.

Numeric values are modelled as exact rationals; the decimal literals below are
the exact decimal numbers written in the source.
-/

namespace MarsCrater

/-! ## List statistics helpers (used by the modelled aggregation) -/

/-- Minimum of a rational list, 0 for the empty list (zero-filled statistics). -/
def listMin : List ℚ → ℚ
  | [] => 0
  | x :: xs => xs.foldl min x

/-- Maximum of a rational list, 0 for the empty list. -/
def listMax : List ℚ → ℚ
  | [] => 0
  | x :: xs => xs.foldl max x

/-- Arithmetic mean of a rational list; division by zero yields 0 in ℚ, so the
empty list gives 0. -/
def mean (l : List ℚ) : ℚ := l.sum / l.length

/-- Median of a rational list: middle element of the sorted list for odd
length, average of the two middle elements for even positive length, 0 for the
empty list. -/
def median (l : List ℚ) : ℚ :=
  let s := l.mergeSort fun a b => decide (a ≤ b)
  if l.length % 2 = 1 then s.getD (l.length / 2) 0
  else if l.length = 0 then 0
  else (s.getD (l.length / 2 - 1) 0 + s.getD (l.length / 2) 0) / 2

/-! ## Detection engine data model -/

/-- A crater candidate as produced by the detection engine (spec section 3):
center in sample space, derived diameter, circularity score and derived depth
estimate. -/
structure CraterCandidate where
  row : Nat
  col : Nat
  diameter_km : ℚ
  circularity : ℚ
  depth_km : ℚ
deriving DecidableEq

/-- The aggregate-statistics record.  The field set is taken from the
`yourStats` record hard-coded in src/src/App.js: candidate count plus
min/mean/median/max of diameter and depth.  Note that the source record has no
mean-circularity field. -/
structure DetectionStatistics where
  total_craters : Nat
  mean_diameter_km : ℚ
  median_diameter_km : ℚ
  min_diameter_km : ℚ
  max_diameter_km : ℚ
  mean_depth_km : ℚ
  median_depth_km : ℚ
  min_depth_km : ℚ
  max_depth_km : ℚ
deriving DecidableEq

/-- The published statistics record hard-coded in src/src/App.js (the
`yourStats` constant, identical in both variants that contain it). -/
def yourStats : DetectionStatistics :=
  { total_craters := 1047
    mean_diameter_km := 1.7156024707291615
    median_diameter_km := 1.54715556557901
    min_diameter_km := 1.034176589165282
    max_diameter_km := 4.173477802981229
    mean_depth_km := 1.2845983951575932
    median_depth_km := 1.1392157
    min_depth_km := 0.0
    max_depth_km := 3.5 }

/-- The scientific benchmark constant from src/src/App.js. -/
def scientificMeanDiameterKm : ℚ := 6.8

/-- The all-zero statistics record (zero-filled statistics for an empty
candidate set, spec sections 4.1 and 8). -/
def zeroStats : DetectionStatistics :=
  { total_craters := 0
    mean_diameter_km := 0
    median_diameter_km := 0
    min_diameter_km := 0
    max_diameter_km := 0
    mean_depth_km := 0
    median_depth_km := 0
    min_depth_km := 0
    max_depth_km := 0 }

/-- Modelled from the spec: DetectionStatistics aggregation over the accepted
candidates (spec section 3 and section 4.1 step 6); the aggregation code is
not part of src/. -/
def computeStats (cands : List CraterCandidate) : DetectionStatistics :=
  let ds := cands.map CraterCandidate.diameter_km
  let hs := cands.map CraterCandidate.depth_km
  { total_craters := cands.length
    mean_diameter_km := mean ds
    median_diameter_km := median ds
    min_diameter_km := listMin ds
    max_diameter_km := listMax ds
    mean_depth_km := mean hs
    median_depth_km := median hs
    min_depth_km := listMin hs
    max_depth_km := listMax hs }

/-- Modelled from the spec: the geometric measurements of one closed contour
after steps 1 to 3 of spec section 4.1.  The edge-detection and
contour-extraction stages are not part of src/ and are represented by their
measured output (centroid, derived diameter, circularity score). -/
structure Contour where
  row : Nat
  col : Nat
  diameter_km : ℚ
  circularity : ℚ
deriving DecidableEq

/-- Modelled from the spec: the depth/diameter model of section 4.1 step 5,
a configured depth factor applied to the diameter and clamped to the maximum
plausible depth. -/
def depthEstimate (depthFactor maxDepth d : ℚ) : ℚ := min (depthFactor * d) maxDepth

/-- Modelled from the spec: the acceptance filter.  A contour is accepted when
its derived diameter is at least the configured minimum (section 4.1 step 3)
and its circularity score lies within [minCirc, 1] (section 4.1 step 4
together with the section 3 data-model range). -/
def acceptContour (minD minCirc : ℚ) (c : Contour) : Bool :=
  decide (minD ≤ c.diameter_km) && decide (minCirc ≤ c.circularity)
    && decide (c.circularity ≤ 1)

/-- Modelled from the spec: building a CraterCandidate from an accepted
contour measurement (sections 3 and 4.1). -/
def mkCandidate (depthFactor maxDepth : ℚ) (c : Contour) : CraterCandidate :=
  { row := c.row
    col := c.col
    diameter_km := c.diameter_km
    circularity := c.circularity
    depth_km := depthEstimate depthFactor maxDepth c.diameter_km }

/-- Modelled from the spec: a raster heightmap tile (spec section 3): a grid
of unsigned samples with declared bit depth and physical conversion factors. -/
structure Tile where
  width : Nat
  height : Nat
  bitDepth : Nat
  samples : List Nat
  kmPerSample : ℚ
  elevKmPerUnit : ℚ
deriving DecidableEq

/-- Modelled from the spec: the structural well-formedness check of a tile
(nonzero size, supported bit depth, declared dimensions matching the scanned
sample count; spec sections 4.1 and 6). -/
def Tile.wellFormed (t : Tile) : Bool :=
  decide (0 < t.width) && decide (0 < t.height) && decide (0 < t.bitDepth)
    && decide (t.bitDepth ≤ 16) && decide (t.samples.length = t.width * t.height)

/-- Modelled from the spec: the error kinds of the detection engine relevant
here (spec section 7). -/
inductive DetectError where
  | malformedTile
deriving DecidableEq

/-- Modelled from the spec: the detection contract of section 4.1.  A
malformed tile fails fast with a structural error before any edge work; an
edge/contour stage outside src/ is represented by the `contours` input; the
diameter filter, circularity filter, depth model and aggregation follow steps
3 to 6.  An empty accepted set is an ordinary success. -/
def detect (t : Tile) (contours : List Contour) (minD minCirc depthFactor maxDepth : ℚ) :
    Except DetectError (List CraterCandidate × DetectionStatistics) :=
  if t.wellFormed then
    let cands := (contours.filter (acceptContour minD minCirc)).map
      (mkCandidate depthFactor maxDepth)
    .ok (cands, computeStats cands)
  else
    .error .malformedTile

/-! ## CSV viewer model (translated from src/src/App.js, first variant) -/

/-- One parsed CSV data row as delivered by the CSV parser in header mode:
the four diameter-statistic columns read by the viewer (a missing column is
`none`, which the JavaScript code turns into NaN via parseFloat) plus any
other columns, which the viewer never reads. -/
structure CsvRow where
  mean_diameter_km : Option String
  median_diameter_km : Option String
  min_diameter_km : Option String
  max_diameter_km : Option String
  extra : List (String × String)
deriving DecidableEq

/-- Value of a decimal digit string, most significant digit first. -/
def digitsVal (cs : List Char) : Nat :=
  cs.foldl (fun n c => 10 * n + (c.toNat - 48)) 0

/-- Model of the JavaScript parseFloat builtin restricted to plain decimal
strings: optional sign, integer digits, optional fractional part; trailing
characters are ignored as in JavaScript; `none` models NaN (no parsable
number, or a missing field).  Exponent notation is not modelled; the
statistics CSV values are plain decimals. -/
def parseFloatQ : Option String → Option ℚ
  | none => none
  | some s =>
    let sgn : Bool × List Char :=
      match s.data with
      | '-' :: r => (true, r)
      | '+' :: r => (false, r)
      | cs => (false, cs)
    let intPart := sgn.2.takeWhile Char.isDigit
    let rest := sgn.2.dropWhile Char.isDigit
    let frac : List Char :=
      match rest with
      | '.' :: r => r.takeWhile Char.isDigit
      | _ => []
    if intPart = [] ∧ frac = [] then none
    else
      let mag : ℚ := (digitsVal intPart : ℚ) + (digitsVal frac : ℚ) / (10 : ℚ) ^ frac.length
      some (if sgn.1 then -mag else mag)

/-- One chart dataset, as built by the viewer. -/
structure ChartDataset where
  label : String
  data : List (Option ℚ)
  backgroundColor : List String
  borderColor : List String
  borderWidth : Nat
deriving DecidableEq

/-- The chart data record set by setChartData. -/
structure ChartData where
  labels : List String
  datasets : List ChartDataset
deriving DecidableEq

/-- Outcome of the CSV parse callback: either an error message was set or
chart data was set. -/
inductive ViewerOutcome where
  | errorMsg (msg : String)
  | chart (data : ChartData)
deriving DecidableEq

/-- The complete-callback of the CSV viewer (src/src/App.js, first variant):
takes the parsed rows, sets an error when the row set is empty, otherwise
builds the polar-area chart data from the four diameter statistics of the
first row only. -/
def parseComplete (rows : List CsvRow) : ViewerOutcome :=
  match rows with
  | [] => .errorMsg "No data found in CSV"
  | data :: _ =>
    .chart
      { labels := ["Mean Diameter (km)", "Median Diameter (km)", "Min Diameter (km)",
          "Max Diameter (km)"]
        datasets := [{
          label := "Diameter (km)"
          data := [parseFloatQ data.mean_diameter_km, parseFloatQ data.median_diameter_km,
            parseFloatQ data.min_diameter_km, parseFloatQ data.max_diameter_km]
          backgroundColor := ["rgba(255, 99, 132, 0.2)", "rgba(54, 162, 235, 0.2)",
            "rgba(255, 206, 86, 0.2)", "rgba(75, 192, 192, 0.2)"]
          borderColor := ["rgba(255, 99, 132, 1)", "rgba(54, 162, 235, 1)",
            "rgba(255, 206, 86, 1)", "rgba(75, 192, 192, 1)"]
          borderWidth := 1 }] }

/-- Which of the three conditional blocks of the viewer render are shown. -/
structure RenderState where
  showError : Bool
  showChart : Bool
  showLoading : Bool
deriving DecidableEq

/-- The render logic of src/src/App.js (first variant): the error block is
rendered when `error` is set; the chart overlay is rendered when `chartData`
is set; otherwise, when no error is set either, the loading message is
rendered. -/
def render (chartData : Option ChartData) (err : Option String) : RenderState :=
  { showError := err.isSome
    showChart := chartData.isSome
    showLoading := chartData.isNone && err.isNone }

/-- The statistics table rows set by setTableData (src/src/App.js, second
variant, lines 312 to 321). -/
def tableData : List (String × ℚ) :=
  [("Mean Diameter (km)", yourStats.mean_diameter_km),
   ("Median Diameter (km)", yourStats.median_diameter_km),
   ("Min Diameter (km)", yourStats.min_diameter_km),
   ("Max Diameter (km)", yourStats.max_diameter_km),
   ("Mean Depth (km)", yourStats.mean_depth_km),
   ("Median Depth (km)", yourStats.median_depth_km),
   ("Min Depth (km)", yourStats.min_depth_km),
   ("Max Depth (km)", yourStats.max_depth_km)]

/-- The statistic names surfaced by the table. -/
def surfacedLabels : List String := tableData.map Prod.fst

/-! ## Heightmap-to-mesh converter model (modelled from spec section 4.2) -/

/-- Modelled from the spec: the downsampling stride of section 4.2 step 1,
the least stride that brings the tile width under the target width (at least
1 so that striding is always defined). -/
def strideFor (width targetWidth : Nat) : Nat :=
  max 1 ((width + targetWidth - 1) / targetWidth)

/-- Number of samples retained from `n` consecutive samples under `stride`
(the indices j with j * stride < n). -/
def retainedCount (n stride : Nat) : Nat := (n + stride - 1) / stride

/-- Width in samples of the emitted mesh for a tile and target width. -/
def meshCols (t : Tile) (targetWidth : Nat) : Nat :=
  retainedCount t.width (strideFor t.width targetWidth)

/-- Height in samples of the emitted mesh: the height is downsampled by the
same stride to preserve aspect (spec section 4.2 step 1). -/
def meshRows (t : Tile) (targetWidth : Nat) : Nat :=
  retainedCount t.height (strideFor t.width targetWidth)

/-- Modelled from the spec: per-chunk counts of newly emitted sample rows for
the chunked conversion of section 4.2 step 2 (each chunk emits up to `chunk`
new rows; boundary rows are shared, not re-emitted). -/
def chunkSizes (rows chunk : Nat) : List Nat :=
  if _h : rows = 0 ∨ chunk = 0 then []
  else min chunk rows :: chunkSizes (rows - chunk) chunk
termination_by rows
decreasing_by omega

/-- Row indices emitted by the successive chunks, given the per-chunk counts
and the index of the first row of the current chunk. -/
def chunkVertRows : List Nat → Nat → List Nat
  | [], _ => []
  | s :: rest, start => List.range' start s ++ chunkVertRows rest (start + s)

/-- Quad-row indices triangulated by the successive chunks: the first chunk
triangulates between its own rows only; every later chunk also triangulates
against the one overlap row shared with the previous chunk (spec section 4.2
steps 2 and 3). -/
def chunkQuadRows : List Nat → Nat → List Nat
  | [], _ => []
  | s :: rest, start =>
    (if start = 0 then List.range' 0 (s - 1) else List.range' (start - 1) s)
      ++ chunkQuadRows rest (start + s)

/-- Modelled from the spec: one emitted vertex, x/y scaled by the physical
kilometers-per-sample and z by the elevation conversion factor (section 4.2
step 3). -/
def vertexAt (t : Tile) (stride i j : Nat) : ℚ × ℚ × ℚ :=
  ((j * stride : Nat) * t.kmPerSample,
   (i * stride : Nat) * t.kmPerSample,
   t.elevKmPerUnit * (t.samples.getD (i * stride * t.width + j * stride) 0 : Nat))

/-- The vertices of one retained sample row. -/
def rowVerts (t : Tile) (stride cols i : Nat) : List (ℚ × ℚ × ℚ) :=
  (List.range cols).map (vertexAt t stride i)

/-- The two triangles per retained 2 by 2 sample quad of one quad row, with
global vertex indices (section 4.2 step 3). -/
def quadRowTris (cols i : Nat) : List (Nat × Nat × Nat) :=
  (List.range (cols - 1)).flatMap fun j =>
    [(i * cols + j, i * cols + j + 1, (i + 1) * cols + j),
     (i * cols + j + 1, (i + 1) * cols + j + 1, (i + 1) * cols + j)]

/-- A terrain mesh: vertex positions and triangle index triples (spec
section 3). -/
structure TerrainMesh where
  verts : List (ℚ × ℚ × ℚ)
  tris : List (Nat × Nat × Nat)
deriving DecidableEq

/-- Modelled from the spec: the chunked assembly of the full mesh (section
4.2 steps 2 and 3): chunks emit their new rows of vertices and triangulate
across the shared boundary row using global indices. -/
def assembleMesh (t : Tile) (stride rows cols chunk : Nat) : TerrainMesh :=
  { verts := (chunkVertRows (chunkSizes rows chunk) 0).flatMap (rowVerts t stride cols)
    tris := (chunkQuadRows (chunkSizes rows chunk) 0).flatMap (quadRowTris cols) }

/-- Modelled from the spec: whole-mesh decimation toward the target face
count (section 4.2 step 4).  The simplification algorithm is left open by the
specification; it is modelled as an index-preserving reduction of the
triangle list to the target count, which never adds vertices or indices. -/
def decimate (m : TerrainMesh) (target : Nat) : TerrainMesh :=
  if m.tris.length ≤ target then m else { verts := m.verts, tris := m.tris.take target }

/-- The assembled (pre-decimation) mesh of the converter for a tile, chunk
row count and target width. -/
def assembleOf (t : Tile) (chunkRows targetWidth : Nat) : TerrainMesh :=
  assembleMesh t (strideFor t.width targetWidth) (meshRows t targetWidth)
    (meshCols t targetWidth) chunkRows

/-- Modelled from the spec: the converter contract of section 4.2 up to the
external export step (which is outside the converter proper): stride
selection, chunked assembly, then whole-mesh decimation. -/
def convert (t : Tile) (chunkRows targetWidth targetFaces : Nat) : TerrainMesh :=
  decimate (assembleOf t chunkRows targetWidth) targetFaces

/-! ## Concrete inputs used by witnesses and counterexamples -/

/-- A small concrete well-formed tile. -/
def tileW : Tile :=
  { width := 4, height := 4, bitDepth := 8
    samples := [0, 1, 2, 3, 4, 5, 6, 7, 8, 9, 10, 11, 12, 13, 14, 15]
    kmPerSample := 1, elevKmPerUnit := 1 }

/-- A concrete malformed tile (declared dimensions do not match the sample
count). -/
def tileBad : Tile :=
  { width := 2, height := 2, bitDepth := 8, samples := [0]
    kmPerSample := 1, elevKmPerUnit := 1 }

/-- A concrete tile with 1024 rows, for the chunking scenario. -/
def tileTall : Tile :=
  { width := 3, height := 1024, bitDepth := 8, samples := []
    kmPerSample := 1, elevKmPerUnit := 1 }

/-- A concrete crater candidate. -/
def candW : CraterCandidate :=
  { row := 5, col := 7, diameter_km := 2, circularity := 1, depth_km := 2 }

/-- A concrete contour that passes the filters used in the witnesses. -/
def contourW : Contour :=
  { row := 5, col := 7, diameter_km := 2, circularity := 1 }

/-- A concrete contour rejected by the diameter filter. -/
def contourSmall : Contour :=
  { row := 1, col := 1, diameter_km := 0, circularity := 1 }

/-- A zero-filled statistics CSV row as the viewer would receive it. -/
def zeroRow : CsvRow :=
  { mean_diameter_km := some "0", median_diameter_km := some "0"
    min_diameter_km := some "0", max_diameter_km := some "0", extra := [] }

/-- A concrete CSV first row with the published statistics. -/
def rowA : CsvRow :=
  { mean_diameter_km := some "1.7156024707291615"
    median_diameter_km := some "1.54715556557901"
    min_diameter_km := some "1.034176589165282"
    max_diameter_km := some "4.173477802981229"
    extra := [("total_craters", "1047")] }

/-- The same four diameter fields as rowA but different extra columns. -/
def rowB : CsvRow :=
  { mean_diameter_km := some "1.7156024707291615"
    median_diameter_km := some "1.54715556557901"
    min_diameter_km := some "1.034176589165282"
    max_diameter_km := some "4.173477802981229"
    extra := [("max_depth_km", "3.5")] }

/-! ## Properties stated by the claims -/

/-- Whether a viewer outcome is the chart outcome (as opposed to the error
outcome). -/
def ViewerOutcome.isChart : ViewerOutcome → Bool
  | .errorMsg _ => false
  | .chart _ => true

/-- The chart labels of a viewer outcome (empty for the error outcome). -/
def ViewerOutcome.chartLabels : ViewerOutcome → List String
  | .errorMsg _ => []
  | .chart c => c.labels

/-- Consistency of an aggregate record with its candidate set: the mean
diameter is the arithmetic mean of the candidate diameters, and for both
diameter and depth the reported minimum is at most the mean, the median and
the maximum. -/
def statsConsistent (cands : List CraterCandidate) : Prop :=
  (computeStats cands).mean_diameter_km
      = (cands.map CraterCandidate.diameter_km).sum / (cands.length : ℚ)
    ∧ (computeStats cands).min_diameter_km ≤ (computeStats cands).mean_diameter_km
    ∧ (computeStats cands).min_diameter_km ≤ (computeStats cands).median_diameter_km
    ∧ (computeStats cands).min_diameter_km ≤ (computeStats cands).max_diameter_km
    ∧ (computeStats cands).min_depth_km ≤ (computeStats cands).mean_depth_km
    ∧ (computeStats cands).min_depth_km ≤ (computeStats cands).median_depth_km
    ∧ (computeStats cands).min_depth_km ≤ (computeStats cands).max_depth_km

/-- The published statistics record satisfies the min at most
mean/median/max orderings for diameter and depth. -/
def publishedOrdered : Prop :=
  yourStats.total_craters = 1047
    ∧ yourStats.min_diameter_km ≤ yourStats.mean_diameter_km
    ∧ yourStats.min_diameter_km ≤ yourStats.median_diameter_km
    ∧ yourStats.min_diameter_km ≤ yourStats.max_diameter_km
    ∧ yourStats.min_depth_km ≤ yourStats.mean_depth_km
    ∧ yourStats.min_depth_km ≤ yourStats.median_depth_km
    ∧ yourStats.min_depth_km ≤ yourStats.max_depth_km

/-- Every candidate of the list has diameter at least the configured minimum
and circularity within [0,1]. -/
def acceptedCandidatesOk (minD : ℚ) (cands : List CraterCandidate) : Prop :=
  ∀ c ∈ cands, minD ≤ c.diameter_km ∧ 0 ≤ c.circularity ∧ c.circularity ≤ 1

/-- Every candidate of the list carries the clamped depth model value for its
own diameter, and that value lies within [0, 8]. -/
def depthsOk (df : ℚ) (cands : List CraterCandidate) : Prop :=
  ∀ c ∈ cands,
    c.depth_km = min (df * c.diameter_km) 8 ∧ 0 ≤ c.depth_km ∧ c.depth_km ≤ 8

/-! ## Helper lemmas about the list statistics -/

theorem foldl_min_le_init (xs : List ℚ) (a : ℚ) : xs.foldl min a ≤ a := by
  induction xs generalizing a with
  | nil => simp
  | cons b xs ih => exact le_trans (ih (min a b)) (min_le_left a b)

theorem foldl_min_le_mem (xs : List ℚ) (a x : ℚ) (hx : x ∈ xs) : xs.foldl min a ≤ x := by
  induction xs generalizing a with
  | nil => cases hx
  | cons b xs ih =>
    rcases List.mem_cons.mp hx with h | h
    · subst h
      exact le_trans (foldl_min_le_init xs (min a x)) (min_le_right a x)
    · exact ih (min a b) h

theorem listMin_le {l : List ℚ} {x : ℚ} (hx : x ∈ l) : listMin l ≤ x := by
  cases l with
  | nil => cases hx
  | cons a xs =>
    show xs.foldl min a ≤ x
    rcases List.mem_cons.mp hx with h | h
    · subst h; exact foldl_min_le_init xs x
    · exact foldl_min_le_mem xs a x h

theorem init_le_foldl_max (xs : List ℚ) (a : ℚ) : a ≤ xs.foldl max a := by
  induction xs generalizing a with
  | nil => simp
  | cons b xs ih => exact le_trans (le_max_left a b) (ih (max a b))

theorem mem_le_foldl_max (xs : List ℚ) (a x : ℚ) (hx : x ∈ xs) : x ≤ xs.foldl max a := by
  induction xs generalizing a with
  | nil => cases hx
  | cons b xs ih =>
    rcases List.mem_cons.mp hx with h | h
    · subst h
      exact le_trans (le_max_right a x) (init_le_foldl_max xs (max a x))
    · exact ih (max a b) h

theorem le_listMax {l : List ℚ} {x : ℚ} (hx : x ∈ l) : x ≤ listMax l := by
  cases l with
  | nil => cases hx
  | cons a xs =>
    show x ≤ xs.foldl max a
    rcases List.mem_cons.mp hx with h | h
    · subst h; exact init_le_foldl_max xs x
    · exact mem_le_foldl_max xs a x h

theorem foldl_min_mem (xs : List ℚ) (a : ℚ) : xs.foldl min a = a ∨ xs.foldl min a ∈ xs := by
  induction xs generalizing a with
  | nil => left; rfl
  | cons b xs ih =>
    rcases ih (min a b) with h | h
    · rcases min_choice a b with hab | hab
      · left; rw [List.foldl_cons, h, hab]
      · right; rw [List.foldl_cons, h, hab]; exact List.mem_cons_self b xs
    · right; exact List.mem_cons_of_mem b h

theorem listMin_mem {l : List ℚ} (hne : l ≠ []) : listMin l ∈ l := by
  cases l with
  | nil => exact absurd rfl hne
  | cons a xs =>
    show xs.foldl min a ∈ a :: xs
    rcases foldl_min_mem xs a with h | h
    · rw [h]; exact List.mem_cons_self a xs
    · exact List.mem_cons_of_mem a h

theorem foldl_max_mem (xs : List ℚ) (a : ℚ) : xs.foldl max a = a ∨ xs.foldl max a ∈ xs := by
  induction xs generalizing a with
  | nil => left; rfl
  | cons b xs ih =>
    rcases ih (max a b) with h | h
    · rcases max_choice a b with hab | hab
      · left; rw [List.foldl_cons, h, hab]
      · right; rw [List.foldl_cons, h, hab]; exact List.mem_cons_self b xs
    · right; exact List.mem_cons_of_mem b h

theorem listMax_mem {l : List ℚ} (hne : l ≠ []) : listMax l ∈ l := by
  cases l with
  | nil => exact absurd rfl hne
  | cons a xs =>
    show xs.foldl max a ∈ a :: xs
    rcases foldl_max_mem xs a with h | h
    · rw [h]; exact List.mem_cons_self a xs
    · exact List.mem_cons_of_mem a h

theorem length_mul_le_sum (l : List ℚ) (c : ℚ) (h : ∀ x ∈ l, c ≤ x) :
    (l.length : ℚ) * c ≤ l.sum := by
  have := List.card_nsmul_le_sum l c h
  simpa [nsmul_eq_mul] using this

theorem sum_le_length_mul (l : List ℚ) (c : ℚ) (h : ∀ x ∈ l, x ≤ c) :
    l.sum ≤ (l.length : ℚ) * c := by
  have := List.sum_le_card_nsmul l c h
  simpa [nsmul_eq_mul] using this

theorem le_mean {l : List ℚ} {c : ℚ} (hne : l ≠ []) (h : ∀ x ∈ l, c ≤ x) :
    c ≤ mean l := by
  have hlen : 0 < (l.length : ℚ) := by
    have : 0 < l.length := List.length_pos.mpr hne
    exact_mod_cast this
  rw [mean, le_div_iff₀ hlen]
  have := length_mul_le_sum l c h
  linarith

theorem mean_le {l : List ℚ} {c : ℚ} (hne : l ≠ []) (h : ∀ x ∈ l, x ≤ c) :
    mean l ≤ c := by
  have hlen : 0 < (l.length : ℚ) := by
    have : 0 < l.length := List.length_pos.mpr hne
    exact_mod_cast this
  rw [mean, div_le_iff₀ hlen]
  have := sum_le_length_mul l c h
  linarith

theorem median_cases {l : List ℚ} (hne : l ≠ []) :
    median l ∈ l ∨ ∃ a ∈ l, ∃ b ∈ l, median l = (a + b) / 2 := by
  have hn : 0 < l.length := List.length_pos.mpr hne
  have hslen : (l.mergeSort fun a b => decide (a ≤ b)).length = l.length :=
    List.length_mergeSort l
  by_cases hodd : l.length % 2 = 1
  · left
    have hidx : l.length / 2 < (l.mergeSort fun a b => decide (a ≤ b)).length := by
      rw [hslen]; omega
    have := List.getD_eq_getElem (l.mergeSort fun a b => decide (a ≤ b)) 0 hidx
    have hmem : median l ∈ l.mergeSort fun a b => decide (a ≤ b) := by
      rw [median]; simp only [hodd, if_pos rfl]
      rw [this]
      exact List.getElem_mem hidx
    exact List.mem_mergeSort.mp hmem
  · right
    have h2 : 2 ≤ l.length := by omega
    have hidx1 : l.length / 2 - 1 < (l.mergeSort fun a b => decide (a ≤ b)).length := by
      rw [hslen]; omega
    have hidx2 : l.length / 2 < (l.mergeSort fun a b => decide (a ≤ b)).length := by
      rw [hslen]; omega
    refine ⟨(l.mergeSort fun a b => decide (a ≤ b)).getD (l.length / 2 - 1) 0, ?_,
      (l.mergeSort fun a b => decide (a ≤ b)).getD (l.length / 2) 0, ?_, ?_⟩
    · rw [List.getD_eq_getElem _ 0 hidx1]
      exact List.mem_mergeSort.mp (List.getElem_mem hidx1)
    · rw [List.getD_eq_getElem _ 0 hidx2]
      exact List.mem_mergeSort.mp (List.getElem_mem hidx2)
    · simp only [median]
      rw [if_neg hodd, if_neg (show ¬l.length = 0 by omega)]

theorem le_median {l : List ℚ} {c : ℚ} (hne : l ≠ []) (h : ∀ x ∈ l, c ≤ x) :
    c ≤ median l := by
  rcases median_cases hne with hm | ⟨a, ha, b, hb, hm⟩
  · exact h _ hm
  · have := h a ha
    have := h b hb
    rw [hm]; linarith

theorem median_le {l : List ℚ} {c : ℚ} (hne : l ≠ []) (h : ∀ x ∈ l, x ≤ c) :
    median l ≤ c := by
  rcases median_cases hne with hm | ⟨a, ha, b, hb, hm⟩
  · exact h _ hm
  · have := h a ha
    have := h b hb
    rw [hm]; linarith

/-! ## Helper lemmas about the detection model -/

theorem computeStats_nil : computeStats [] = zeroStats := by
  simp [computeStats, zeroStats, mean, median, listMin, listMax]

theorem detect_ok_inv {t : Tile} {contours : List Contour} {minD minCirc df md : ℚ}
    {cands : List CraterCandidate} {stats : DetectionStatistics}
    (h : detect t contours minD minCirc df md = .ok (cands, stats)) :
    cands = (contours.filter (acceptContour minD minCirc)).map (mkCandidate df md)
      ∧ stats = computeStats cands := by
  simp only [detect] at h
  split at h
  · simp only [Except.ok.injEq, Prod.mk.injEq] at h
    exact ⟨h.1.symm, by rw [← h.1, ← h.2]⟩
  · simp at h

/-! ## Claim C1 -/

/-- C1: every DetectionStatistics aggregate over a candidate set is
consistent with that set (the mean diameter is the arithmetic mean of the
candidate diameters, and for diameter and depth the minimum is at most the
mean, the median and the maximum); the published record satisfies these
orderings, and the empty candidate set yields the zero-filled record rather
than a failure. -/
theorem detection_stats_consistent (cands : List CraterCandidate) (hne : cands ≠ []) :
    statsConsistent cands ∧ publishedOrdered ∧ computeStats [] = zeroStats := by
  refine ⟨?_, ?_, computeStats_nil⟩
  · have hd : cands.map CraterCandidate.diameter_km ≠ [] := by simpa using hne
    have hh : cands.map CraterCandidate.depth_km ≠ [] := by simpa using hne
    refine ⟨?_, ?_, ?_, ?_, ?_, ?_, ?_⟩
    · simp [computeStats, mean]
    · simpa [computeStats] using le_mean hd fun x hx => listMin_le hx
    · simpa [computeStats] using le_median hd fun x hx => listMin_le hx
    · simpa [computeStats] using listMin_le (listMax_mem hd)
    · simpa [computeStats] using le_mean hh fun x hx => listMin_le hx
    · simpa [computeStats] using le_median hh fun x hx => listMin_le hx
    · simpa [computeStats] using listMin_le (listMax_mem hh)
  · simp only [publishedOrdered, yourStats]
    norm_num

/-- C1 witness: the consistency theorem applied to a concrete one-candidate
set. -/
theorem detection_stats_consistent_witness :
    statsConsistent [candW] ∧ publishedOrdered ∧ computeStats [] = zeroStats :=
  detection_stats_consistent [candW] (by simp)

/-! ## Claim C2 -/

theorem acceptContour_eq_true {minD minCirc : ℚ} {c : Contour} :
    acceptContour minD minCirc c = true
      ↔ minD ≤ c.diameter_km ∧ minCirc ≤ c.circularity ∧ c.circularity ≤ 1 := by
  simp [acceptContour, and_assoc]

theorem detect_tileW_eq :
    detect tileW [contourW, contourSmall] 1 0 1 8
      = .ok ([candW], computeStats [candW]) := by
  have hw : tileW.wellFormed = true := by decide
  norm_num [detect, hw, List.filter_cons, acceptContour, contourW, contourSmall,
    mkCandidate, depthEstimate, candW, min_def]

/-- C2 counterexample: with the default minimum diameter of 1 km, a
well-formed tile all of whose contours are rejected yields a statistics
record over the (empty) accepted candidate set that reports a minimum
diameter of 0, which is not at least 1 km — so the statistics-record half of
the claim fails for the empty accepted set. -/
theorem min_diameter_empty_counterexample :
    detect tileW [contourSmall] 1 0 1 8 = .ok ([], zeroStats)
      ∧ ¬(1 ≤ zeroStats.min_diameter_km) := by
  constructor
  · have hw : tileW.wellFormed = true := by decide
    norm_num [detect, hw, List.filter_cons, acceptContour, contourSmall,
      computeStats_nil]
  · norm_num [zeroStats]

/-- C2 amended: every accepted CraterCandidate has diameter at least the
configured minimum and circularity within [0,1]; for a nonempty accepted
candidate set the reported minimum diameter is at least the configured
minimum (hence at least 1 km for the default); the published statistics
record reports a minimum diameter of at least 1 km. -/
theorem accepted_candidate_bounds {t : Tile} {contours : List Contour}
    {minD minCirc df md : ℚ} {cands : List CraterCandidate}
    {stats : DetectionStatistics} (hcirc : 0 ≤ minCirc)
    (h : detect t contours minD minCirc df md = .ok (cands, stats)) :
    acceptedCandidatesOk minD cands
      ∧ (cands ≠ [] → minD ≤ stats.min_diameter_km)
      ∧ 1 ≤ yourStats.min_diameter_km := by
  obtain ⟨hc, hs⟩ := detect_ok_inv h
  have hok : acceptedCandidatesOk minD cands := by
    intro c hmem
    rw [hc] at hmem
    obtain ⟨c0, hc0, hcc⟩ := List.mem_map.mp hmem
    obtain ⟨_, hacc⟩ := List.mem_filter.mp hc0
    obtain ⟨h1, h2, h3⟩ := acceptContour_eq_true.mp hacc
    subst hcc
    exact ⟨h1, le_trans hcirc h2, h3⟩
  refine ⟨hok, ?_, by norm_num [yourStats]⟩
  intro hne
  have hd : cands.map CraterCandidate.diameter_km ≠ [] := by simpa using hne
  have hmem := listMin_mem hd
  obtain ⟨c, hcm, hcd⟩ := List.mem_map.mp hmem
  rw [hs]
  show minD ≤ listMin (cands.map CraterCandidate.diameter_km)
  rw [← hcd]
  exact (hok c hcm).1

/-- C2 amended witness: the bounds applied to a concrete detection run with
one accepted and one rejected contour. -/
theorem accepted_candidate_bounds_witness :
    acceptedCandidatesOk 1 [candW]
      ∧ ([candW] ≠ [] → (1 : ℚ) ≤ (computeStats [candW]).min_diameter_km)
      ∧ 1 ≤ yourStats.min_diameter_km :=
  accepted_candidate_bounds le_rfl detect_tileW_eq

/-! ## Claim C3 -/

/-- C3: every candidate produced with the default maximum plausible depth of
8 km carries the clamped depth/diameter model value for its own diameter,
every such depth lies within [0, 8], all four depth aggregates of the
resulting statistics record lie within [0, 8], and the published record also
reports depths within [0, 8]. -/
theorem depth_model_bounds {t : Tile} {contours : List Contour}
    {minD minCirc df : ℚ} {cands : List CraterCandidate}
    {stats : DetectionStatistics} (hdf : 0 ≤ df) (hminD : 0 ≤ minD)
    (h : detect t contours minD minCirc df 8 = .ok (cands, stats)) :
    depthsOk df cands
      ∧ (0 ≤ stats.min_depth_km ∧ stats.min_depth_km ≤ 8)
      ∧ (0 ≤ stats.max_depth_km ∧ stats.max_depth_km ≤ 8)
      ∧ (0 ≤ stats.mean_depth_km ∧ stats.mean_depth_km ≤ 8)
      ∧ (0 ≤ stats.median_depth_km ∧ stats.median_depth_km ≤ 8)
      ∧ (0 ≤ yourStats.min_depth_km ∧ yourStats.max_depth_km ≤ 8) := by
  obtain ⟨hc, hs⟩ := detect_ok_inv h
  have hok : depthsOk df cands := by
    intro c hmem
    rw [hc] at hmem
    obtain ⟨c0, hc0, hcc⟩ := List.mem_map.mp hmem
    obtain ⟨_, hacc⟩ := List.mem_filter.mp hc0
    obtain ⟨h1, _, _⟩ := acceptContour_eq_true.mp hacc
    subst hcc
    have hd0 : 0 ≤ c0.diameter_km := le_trans hminD h1
    have hprod : 0 ≤ df * c0.diameter_km := mul_nonneg hdf hd0
    refine ⟨rfl, ?_, ?_⟩
    · exact le_min hprod (by norm_num)
    · exact min_le_right _ _
  have hbounds : ∀ x ∈ cands.map CraterCandidate.depth_km, 0 ≤ x ∧ x ≤ 8 := by
    intro x hx
    obtain ⟨c, hcm, hcd⟩ := List.mem_map.mp hx
    obtain ⟨_, hlo, hhi⟩ := hok c hcm
    exact ⟨hcd ▸ hlo, hcd ▸ hhi⟩
  subst hs
  rcases eq_or_ne cands [] with hnil | hne
  · subst hnil
    rw [computeStats_nil]
    refine ⟨hok, ?_, ?_, ?_, ?_, ?_⟩ <;> norm_num [zeroStats, yourStats]
  · have hd : cands.map CraterCandidate.depth_km ≠ [] := by simpa using hne
    refine ⟨hok, ?_, ?_, ?_, ?_, by norm_num [yourStats]⟩
    · constructor
      · simpa [computeStats] using
          (hbounds _ (listMin_mem hd)).1
      · simpa [computeStats] using
          le_trans (listMin_le (listMax_mem hd)) (hbounds _ (listMax_mem hd)).2
    · constructor
      · simpa [computeStats] using
          le_trans (hbounds _ (listMin_mem hd)).1 (listMin_le (listMax_mem hd))
      · simpa [computeStats] using (hbounds _ (listMax_mem hd)).2
    · constructor
      · simpa [computeStats] using le_mean hd fun x hx => (hbounds x hx).1
      · simpa [computeStats] using mean_le hd fun x hx => (hbounds x hx).2
    · constructor
      · simpa [computeStats] using le_median hd fun x hx => (hbounds x hx).1
      · simpa [computeStats] using median_le hd fun x hx => (hbounds x hx).2

/-- C3 witness: the depth bounds applied to a concrete detection run. -/
theorem depth_model_bounds_witness :
    depthsOk 1 [candW]
      ∧ (0 ≤ (computeStats [candW]).min_depth_km
          ∧ (computeStats [candW]).min_depth_km ≤ 8)
      ∧ (0 ≤ (computeStats [candW]).max_depth_km
          ∧ (computeStats [candW]).max_depth_km ≤ 8)
      ∧ (0 ≤ (computeStats [candW]).mean_depth_km
          ∧ (computeStats [candW]).mean_depth_km ≤ 8)
      ∧ (0 ≤ (computeStats [candW]).median_depth_km
          ∧ (computeStats [candW]).median_depth_km ≤ 8)
      ∧ (0 ≤ yourStats.min_depth_km ∧ yourStats.max_depth_km ≤ 8) :=
  depth_model_bounds (by norm_num) (by norm_num) detect_tileW_eq

/-! ## Claim C5 -/

/-- C5: a well-formed tile whose contours all fail the filters yields the
empty candidate set with the zero-filled statistics record as an ordinary
success, a malformed tile fails fast with the structural error, the two
outcomes are distinguishable, and the viewer likewise distinguishes an empty
CSV (error message) from a zero-filled statistics row (chart). -/
theorem empty_result_not_error {t t2 : Tile} {contours contours2 : List Contour}
    {minD minCirc df md : ℚ} (hw : t.wellFormed = true)
    (hempty : contours.filter (acceptContour minD minCirc) = [])
    (hw2 : t2.wellFormed = false) :
    detect t contours minD minCirc df md = .ok ([], zeroStats)
      ∧ detect t2 contours2 minD minCirc df md = .error .malformedTile
      ∧ detect t contours minD minCirc df md
          ≠ detect t2 contours2 minD minCirc df md
      ∧ parseComplete [] = .errorMsg "No data found in CSV"
      ∧ (parseComplete [zeroRow]).isChart = true
      ∧ (parseComplete []).isChart = false := by
  have h1 : detect t contours minD minCirc df md = .ok ([], zeroStats) := by
    simp [detect, hw, hempty, computeStats_nil]
  have h2 : detect t2 contours2 minD minCirc df md = .error .malformedTile := by
    simp [detect, hw2]
  refine ⟨h1, h2, ?_, rfl, rfl, rfl⟩
  rw [h1, h2]
  simp

/-- C5 witness: the distinction applied to a concrete well-formed tile with
only rejected contours and a concrete malformed tile. -/
theorem empty_result_not_error_witness :
    detect tileW [contourSmall] 1 0 1 8 = .ok ([], zeroStats)
      ∧ detect tileBad [contourW] 1 0 1 8 = .error .malformedTile
      ∧ detect tileW [contourSmall] 1 0 1 8
          ≠ detect tileBad [contourW] 1 0 1 8
      ∧ parseComplete [] = .errorMsg "No data found in CSV"
      ∧ (parseComplete [zeroRow]).isChart = true
      ∧ (parseComplete []).isChart = false :=
  empty_result_not_error (by decide)
    (by norm_num [List.filter_cons, acceptContour, contourSmall])
    (by decide)

/-! ## Claim C4 -/

/-- C4 counterexample: no mean-circularity statistic is surfaced anywhere —
the statistics table surfaces exactly the eight diameter/depth aggregates of
the published record, and none of the surfaced labels is a circularity
statistic. -/
theorem mean_circularity_not_surfaced :
    surfacedLabels = ["Mean Diameter (km)", "Median Diameter (km)", "Min Diameter (km)",
        "Max Diameter (km)", "Mean Depth (km)", "Median Depth (km)", "Min Depth (km)",
        "Max Depth (km)"]
      ∧ "Mean Circularity" ∉ surfacedLabels
      ∧ "Mean Circularity (km)" ∉ surfacedLabels
      ∧ "Mean Circularity" ∉ (parseComplete [rowA]).chartLabels := by
  refine ⟨rfl, by decide, by decide, by decide⟩

/-- C4 amended: the aggregate statistics record of the code carries the
candidate count and the min/mean/median/max of diameter and depth but no
mean-circularity field; the statistics table surfaces exactly those eight
aggregates with the published values, and the CSV viewer chart surfaces only
the four diameter aggregates. -/
theorem surfaced_statistics_exact :
    yourStats.total_craters = 1047
      ∧ tableData =
          [("Mean Diameter (km)", 1.7156024707291615),
           ("Median Diameter (km)", 1.54715556557901),
           ("Min Diameter (km)", 1.034176589165282),
           ("Max Diameter (km)", 4.173477802981229),
           ("Mean Depth (km)", 1.2845983951575932),
           ("Median Depth (km)", 1.1392157),
           ("Min Depth (km)", 0),
           ("Max Depth (km)", 3.5)]
      ∧ (parseComplete [rowA]).chartLabels =
          ["Mean Diameter (km)", "Median Diameter (km)", "Min Diameter (km)",
           "Max Diameter (km)"] := by
  refine ⟨rfl, ?_, rfl⟩
  norm_num [tableData, yourStats]

/-! ## Claim C9 -/

/-- C9: the chart data built by the CSV viewer depends only on the first
parsed data row — two row lists whose first rows agree on the four diameter
fields produce identical outcomes, whatever the remaining rows and the other
columns of the first row contain. -/
theorem chart_depends_only_on_first_row (r1 r2 : CsvRow) (rest1 rest2 : List CsvRow)
    (h1 : r1.mean_diameter_km = r2.mean_diameter_km)
    (h2 : r1.median_diameter_km = r2.median_diameter_km)
    (h3 : r1.min_diameter_km = r2.min_diameter_km)
    (h4 : r1.max_diameter_km = r2.max_diameter_km) :
    parseComplete (r1 :: rest1) = parseComplete (r2 :: rest2) := by
  simp [parseComplete, h1, h2, h3, h4]

/-- C9 witness: two concrete CSV row lists that agree only on the four
diameter fields of their first rows (different extra columns, different
trailing rows) produce the same chart. -/
theorem chart_depends_only_on_first_row_witness :
    parseComplete [rowA, zeroRow] = parseComplete [rowB] :=
  chart_depends_only_on_first_row rowA rowB [zeroRow] [] rfl rfl rfl rfl

/-! ## Claim C10 -/

/-- C10: in the viewer render, the loading message is shown exactly when
neither chart data nor an error has been set, an error being set forces the
loading message off, and the chart overlay is shown exactly when chart data
has been set. -/
theorem render_state_invariant (cd : Option ChartData) (err : Option String) :
    ((render cd err).showLoading = true ↔ cd = none ∧ err = none)
      ∧ (err ≠ none → (render cd err).showLoading = false)
      ∧ ((render cd err).showChart = true ↔ cd ≠ none) := by
  cases cd <;> cases err <;> simp [render]

/-- C10 witness: the render invariant at the initial state (nothing set). -/
theorem render_state_invariant_witness :
    ((render none none).showLoading = true
        ↔ (none : Option ChartData) = none ∧ (none : Option String) = none)
      ∧ ((none : Option String) ≠ none → (render none none).showLoading = false)
      ∧ ((render none none).showChart = true ↔ (none : Option ChartData) ≠ none) :=
  render_state_invariant none none

/-! ## Helper lemmas about the converter model -/

theorem range'_append_one (s m n : Nat) :
    List.range' s m ++ List.range' (s + m) n = List.range' s (m + n) := by
  have h := List.range'_append s m n 1
  simp only [Nat.one_mul] at h
  rw [h, Nat.add_comm]

theorem strideFor_pos (w tw : Nat) : 0 < strideFor w tw :=
  Nat.lt_of_lt_of_le Nat.zero_lt_one (le_max_left 1 _)

theorem retainedCount_pos (n s : Nat) (hn : 0 < n) (hs : 0 < s) :
    0 < retainedCount n s := by
  rw [retainedCount]
  exact Nat.div_pos (by omega) hs

theorem chunkSizes_sum (rows chunk : Nat) (hc : 0 < chunk) :
    (chunkSizes rows chunk).sum = rows := by
  induction rows using Nat.strong_induction_on with
  | _ rows ih =>
    rw [chunkSizes]
    by_cases h : rows = 0 ∨ chunk = 0
    · rw [dif_pos h]
      simp
      omega
    · rw [dif_neg h]
      have hlt : rows - chunk < rows := by omega
      rw [List.sum_cons, ih _ hlt]
      omega

theorem chunkSizes_pos (rows chunk : Nat) :
    ∀ s ∈ chunkSizes rows chunk, 0 < s := by
  induction rows using Nat.strong_induction_on with
  | _ rows ih =>
    intro s hs
    rw [chunkSizes] at hs
    by_cases h : rows = 0 ∨ chunk = 0
    · rw [dif_pos h] at hs
      cases hs
    · rw [dif_neg h] at hs
      rcases List.mem_cons.mp hs with h1 | h1
      · subst h1; omega
      · exact ih (rows - chunk) (by omega) s h1

theorem chunkVertRows_eq (sizes : List Nat) (start : Nat) :
    chunkVertRows sizes start = List.range' start sizes.sum := by
  induction sizes generalizing start with
  | nil => simp [chunkVertRows]
  | cons s rest ih =>
    rw [List.sum_cons, ← range'_append_one start s rest.sum]
    simp [chunkVertRows, ih]

theorem chunkQuadRows_go (sizes : List Nat) (start : Nat) (hstart : 0 < start)
    (hpos : ∀ s ∈ sizes, 0 < s) :
    chunkQuadRows sizes start = List.range' (start - 1) sizes.sum := by
  induction sizes generalizing start with
  | nil => simp [chunkQuadRows]
  | cons s rest ih =>
    have hs : 0 < s := hpos s (List.mem_cons_self s rest)
    simp only [chunkQuadRows, if_neg (by omega : ¬start = 0)]
    rw [ih (start + s) (by omega) fun x hx => hpos x (List.mem_cons_of_mem s hx)]
    have harg : start + s - 1 = start - 1 + s := by omega
    rw [harg, List.sum_cons, ← range'_append_one (start - 1) s rest.sum]

theorem chunkQuadRows_eq (rows chunk : Nat) (hc : 0 < chunk) (hr : 0 < rows) :
    chunkQuadRows (chunkSizes rows chunk) 0 = List.range' 0 (rows - 1) := by
  have hd : chunkSizes rows chunk
      = min chunk rows :: chunkSizes (rows - chunk) chunk := by
    rw [chunkSizes, dif_neg (by omega : ¬(rows = 0 ∨ chunk = 0))]
  rw [hd]
  simp only [chunkQuadRows, eq_self_iff_true, if_true, Nat.zero_add]
  rw [chunkQuadRows_go _ (min chunk rows) (by omega) (chunkSizes_pos _ _)]
  rw [chunkSizes_sum _ _ hc]
  have h := range'_append_one 0 (min chunk rows - 1) (rows - chunk)
  simp only [Nat.zero_add] at h
  rw [h]
  congr 1
  omega

theorem assembleMesh_verts_length (t : Tile) (stride rows cols chunk : Nat)
    (hc : 0 < chunk) :
    (assembleMesh t stride rows cols chunk).verts.length = rows * cols := by
  simp only [assembleMesh]
  rw [List.length_flatMap, chunkVertRows_eq, chunkSizes_sum rows chunk hc]
  have h : (List.map (List.length ∘ rowVerts t stride cols) (List.range' 0 rows))
      = List.map (fun _ => cols) (List.range' 0 rows) := by
    apply List.map_congr_left
    intro i _
    simp [rowVerts]
  rw [h, List.map_const', List.sum_replicate, List.length_range', smul_eq_mul]

theorem quadRowTris_length (cols i : Nat) :
    (quadRowTris cols i).length = (cols - 1) * 2 := by
  rw [quadRowTris, List.length_flatMap]
  have h : (List.map
      (List.length ∘ fun j =>
        [(i * cols + j, i * cols + j + 1, (i + 1) * cols + j),
         (i * cols + j + 1, (i + 1) * cols + j + 1, (i + 1) * cols + j)])
      (List.range (cols - 1)))
      = List.map (fun _ => 2) (List.range (cols - 1)) := by
    apply List.map_congr_left
    intro j _
    simp
  rw [h, List.map_const', List.sum_replicate, List.length_range, smul_eq_mul]

theorem assembleMesh_tris_length (t : Tile) (stride rows cols chunk : Nat)
    (hc : 0 < chunk) (hr : 0 < rows) :
    (assembleMesh t stride rows cols chunk).tris.length
      = (rows - 1) * ((cols - 1) * 2) := by
  simp only [assembleMesh]
  rw [List.length_flatMap, chunkQuadRows_eq rows chunk hc hr]
  have h : (List.map (List.length ∘ quadRowTris cols) (List.range' 0 (rows - 1)))
      = List.map (fun _ => (cols - 1) * 2) (List.range' 0 (rows - 1)) := by
    apply List.map_congr_left
    intro i _
    simp [quadRowTris_length]
  rw [h, List.map_const', List.sum_replicate, List.length_range', smul_eq_mul]

theorem quadRowTris_index_lt (rows cols i : Nat) (hi : i < rows - 1)
    (tri : Nat × Nat × Nat) (ht : tri ∈ quadRowTris cols i) :
    tri.1 < rows * cols ∧ tri.2.1 < rows * cols ∧ tri.2.2 < rows * cols := by
  simp only [quadRowTris, List.mem_flatMap, List.mem_range] at ht
  obtain ⟨j, hj, hmem⟩ := ht
  have hkey : (i + 1) * cols + (j + 1) < rows * cols := by
    have h1 : (i + 1) * cols ≤ (rows - 1) * cols :=
      Nat.mul_le_mul_right cols (by omega)
    have h2 : (rows - 1) * cols + cols = rows * cols := by
      have h3 : (rows - 1 + 1) * cols = (rows - 1) * cols + cols := Nat.succ_mul _ _
      rw [← h3]
      congr 1
      omega
    omega
  have hmono : i * cols ≤ (i + 1) * cols := Nat.mul_le_mul_right cols (by omega)
  simp only [List.mem_cons, List.not_mem_nil, or_false] at hmem
  rcases hmem with h | h <;> subst h <;> refine ⟨?_, ?_, ?_⟩ <;> simp <;> omega

theorem assembleMesh_index_lt (t : Tile) (stride rows cols chunk : Nat)
    (hc : 0 < chunk) :
    ∀ tri ∈ (assembleMesh t stride rows cols chunk).tris,
      tri.1 < rows * cols ∧ tri.2.1 < rows * cols ∧ tri.2.2 < rows * cols := by
  intro tri ht
  rcases Nat.eq_zero_or_pos rows with hr | hr
  · subst hr
    simp only [assembleMesh] at ht
    rw [show chunkSizes 0 chunk = [] from by rw [chunkSizes, dif_pos (Or.inl rfl)]]
      at ht
    simp [chunkQuadRows] at ht
  · simp only [assembleMesh] at ht
    rw [chunkQuadRows_eq rows chunk hc hr] at ht
    simp only [List.mem_flatMap, List.mem_range'] at ht
    obtain ⟨i, ⟨k, hk, hik⟩, hmem⟩ := ht
    have hi : i < rows - 1 := by omega
    exact quadRowTris_index_lt rows cols i hi tri hmem

/-! ## Claim C7 -/

/-- C7: for any tile width and any positive target width, the emitted mesh
width in samples (the retained column count under the chosen stride) never
exceeds the target width. -/
theorem emitted_width_bounded (w tw : Nat) (htw : 0 < tw) :
    retainedCount w (strideFor w tw) ≤ tw := by
  have hs : 0 < strideFor w tw := strideFor_pos w tw
  have hmul : w ≤ strideFor w tw * tw := by
    rw [strideFor]
    have key := Nat.div_add_mod (w + tw - 1) tw
    have hrlt : (w + tw - 1) % tw < tw := Nat.mod_lt _ htw
    rcases Nat.eq_zero_or_pos ((w + tw - 1) / tw) with hq | hq
    · rw [hq] at key ⊢
      simp only [Nat.mul_zero, Nat.zero_add] at key
      simp only [Nat.max_eq_left (by omega : 0 ≤ 1), Nat.one_mul]
      omega
    · rw [Nat.max_eq_right hq]
      have hcomm : (w + tw - 1) / tw * tw = tw * ((w + tw - 1) / tw) :=
        Nat.mul_comm _ _
      omega
  rw [retainedCount]
  have h2 : w + strideFor w tw - 1 < (tw + 1) * strideFor w tw := by
    have hexp : (tw + 1) * strideFor w tw
        = tw * strideFor w tw + strideFor w tw := Nat.succ_mul tw _
    have hcomm : strideFor w tw * tw = tw * strideFor w tw := Nat.mul_comm _ _
    omega
  have h3 : (w + strideFor w tw - 1) / strideFor w tw < tw + 1 :=
    (Nat.div_lt_iff_lt_mul hs).mpr h2
  omega

/-- C7 witness: the width bound at a concrete tile width and target width
(width 4, target 3: stride 2, retained width 2). -/
theorem emitted_width_bounded_witness :
    retainedCount 4 (strideFor 4 3) ≤ 3 :=
  emitted_width_bounded 4 3 (by decide)

/-! ## Claim C6 -/

/-- C6: for every mesh produced by convert (with positive chunk size and
positive face target), every triangle index triple references a vertex within
vertex-count bounds; after decimation the triangle count never exceeds the
target face count, and for a non-degenerate tile (at least two retained rows
and columns) it is positive. -/
theorem mesh_invariants (t : Tile) (chunkRows tw tf : Nat)
    (hchunk : 0 < chunkRows) (htf : 0 < tf)
    (hrows : 2 ≤ meshRows t tw) (hcols : 2 ≤ meshCols t tw) :
    (∀ tri ∈ (convert t chunkRows tw tf).tris,
        tri.1 < (convert t chunkRows tw tf).verts.length
          ∧ tri.2.1 < (convert t chunkRows tw tf).verts.length
          ∧ tri.2.2 < (convert t chunkRows tw tf).verts.length)
      ∧ (convert t chunkRows tw tf).tris.length ≤ tf
      ∧ 0 < (convert t chunkRows tw tf).tris.length := by
  have hvlen : (assembleOf t chunkRows tw).verts.length
      = meshRows t tw * meshCols t tw :=
    assembleMesh_verts_length t _ _ _ chunkRows hchunk
  have htlen : (assembleOf t chunkRows tw).tris.length
      = (meshRows t tw - 1) * ((meshCols t tw - 1) * 2) :=
    assembleMesh_tris_length t _ _ _ chunkRows hchunk (by omega)
  have hidx := assembleMesh_index_lt t (strideFor t.width tw) (meshRows t tw)
    (meshCols t tw) chunkRows hchunk
  have htpos : 0 < (assembleOf t chunkRows tw).tris.length := by
    rw [htlen]
    have h1 : 0 < meshRows t tw - 1 := by omega
    have h2 : 0 < (meshCols t tw - 1) * 2 := by
      have : 0 < meshCols t tw - 1 := by omega
      omega
    exact Nat.mul_pos h1 h2
  simp only [convert, decimate]
  split
  · refine ⟨?_, by omega, htpos⟩
    intro tri ht
    rw [hvlen]
    exact hidx tri ht
  · rename_i hgt
    refine ⟨?_, ?_, ?_⟩
    · intro tri ht
      simp only at ht ⊢
      rw [hvlen]
      exact hidx tri (List.take_subset tf _ ht)
    · simp [List.length_take]
    · simp only [List.length_take]
      omega

/-- C6 witness: the invariants at a concrete 4 by 4 tile converted with chunk
size 2, target width 4 and face target 100. -/
theorem mesh_invariants_witness :
    (∀ tri ∈ (convert tileW 2 4 100).tris,
        tri.1 < (convert tileW 2 4 100).verts.length
          ∧ tri.2.1 < (convert tileW 2 4 100).verts.length
          ∧ tri.2.2 < (convert tileW 2 4 100).verts.length)
      ∧ (convert tileW 2 4 100).tris.length ≤ 100
      ∧ 0 < (convert tileW 2 4 100).tris.length :=
  mesh_invariants tileW 2 4 100 (by decide) (by decide) (by decide) (by decide)

/-! ## Claim C8 -/

/-- C8: on a 1024-row tile, the chunked conversion with chunk_rows 128 and
with chunk_rows 512 yields assembled meshes with identical vertex counts and
identical triangle counts before decimation: the chunking granularity does
not change the assembled mesh size. -/
theorem chunking_preserves_counts (t : Tile) (tw : Nat) (hh : t.height = 1024) :
    (assembleOf t 128 tw).verts.length = (assembleOf t 512 tw).verts.length
      ∧ (assembleOf t 128 tw).tris.length = (assembleOf t 512 tw).tris.length := by
  have hr : 0 < meshRows t tw := by
    rw [meshRows, hh]
    exact retainedCount_pos 1024 _ (by norm_num) (strideFor_pos _ _)
  constructor
  · rw [assembleOf, assembleOf,
      assembleMesh_verts_length t _ _ _ 128 (by norm_num),
      assembleMesh_verts_length t _ _ _ 512 (by norm_num)]
  · rw [assembleOf, assembleOf,
      assembleMesh_tris_length t _ _ _ 128 (by norm_num) hr,
      assembleMesh_tris_length t _ _ _ 512 (by norm_num) hr]

/-- C8 witness: the count equality at a concrete 1024-row tile and target
width 2. -/
theorem chunking_preserves_counts_witness :
    (assembleOf tileTall 128 2).verts.length = (assembleOf tileTall 512 2).verts.length
      ∧ (assembleOf tileTall 128 2).tris.length
          = (assembleOf tileTall 512 2).tris.length :=
  chunking_preserves_counts tileTall 2 rfl

end MarsCrater
